import Mathlib

/-!
Verification of the Subsidio-Vivienda ingestion and normalization pipeline
(`src/app.py`), shallowly embedded in Lean.  Dataframe cells are modelled by
an inductive type (`missing` for pandas NaN, `num` for numeric values, `str`
for raw strings); a dataframe is a list of column names plus positional rows,
as in pandas.  Machine floats are modelled by `ℚ`: every value handled by the
pipeline is an integer-valued count or COP amount (the spec itself notes the
data has no fractional parts).
-/

namespace Subsidio

/-- A dataframe cell: pandas NaN (`missing`), a numeric value, or a raw
string.  Columns are modelled as object-dtype: each cell is a string, a
number, or NaN. -/
inductive Cell where
  | missing
  | num (x : ℚ)
  | str (s : String)
deriving DecidableEq

/-- Numeric value of a run of decimal digits (most significant first). -/
def digitsVal (cs : List Char) : ℕ :=
  cs.foldl (fun a c => 10 * a + (c.toNat - 48)) 0

/-- Parse an unsigned decimal literal: digits, optionally a dot and more
digits.  This is the fragment of Python float syntax exercised by the data
(no exponents, infinities or NaN literals, which never appear in the
subsidy files). -/
def parseUnsigned (cs : List Char) : Option ℚ :=
  let intPart := cs.takeWhile Char.isDigit
  let rest := cs.dropWhile Char.isDigit
  match rest with
  | [] => if intPart.isEmpty then none else some (digitsVal intPart)
  | '.' :: frac =>
    if frac.all Char.isDigit && !(intPart.isEmpty && frac.isEmpty) then
      some ((digitsVal intPart : ℚ) + (digitsVal frac : ℚ) / 10 ^ frac.length)
    else none
  | _ => none

/-- Strip leading and trailing whitespace from a character list. -/
def trimChars (cs : List Char) : List Char :=
  ((cs.dropWhile Char.isWhitespace).reverse.dropWhile Char.isWhitespace).reverse

/-- Model of `float(s)` as used by `pd.to_numeric` on a single string: surrounding
whitespace is ignored, then an optionally signed decimal literal is parsed;
`none` when the string does not parse as a number. -/
def parseNum (s : String) : Option ℚ :=
  match trimChars s.data with
  | '-' :: cs => (parseUnsigned cs).map (fun q => -q)
  | '+' :: cs => parseUnsigned cs
  | cs => parseUnsigned cs

/-- Model of `astype(str)` on one cell: NaN prints as `"nan"`, numbers print as their
literal (integer-valued cells print without a decimal point, as Python ints
do in an object column). -/
def Cell.astypeStr : Cell → String
  | .missing => "nan"
  | .num x => if x.den = 1 then toString x.num else toString x
  | .str s => s

/-- Remove every occurrence of the character `a`: models
`.str.replace(a, '')`, a literal (non-regex) replacement. -/
def removeChar (a : Char) (s : String) : String :=
  ⟨s.data.filter (fun c => c != a)⟩

/-- The numeric coercion
`pd.to_numeric(v.astype(str).str.replace(',', '').str.replace('$', '')
.str.replace('.', ''), errors='coerce')` used for `hogares`,
`valor_asignado` and `no_sfv_asignados` (src/app.py:178-189,233):
strip `','`, `'$'` and `'.'`, parse the remainder as a float, NaN on
failure. -/
def coerce_numeric (v : Cell) : Cell :=
  match parseNum (removeChar '.' (removeChar '$' (removeChar ',' v.astypeStr))) with
  | some q => .num q
  | none => .missing

/-- The same coercion without the `'$'` strip, used for the year and count
columns (src/app.py:182,191,201,208,231,235,238,250). -/
def coerce_numeric_plain (v : Cell) : Cell :=
  match parseNum (removeChar '.' (removeChar ',' v.astypeStr)) with
  | some q => .num q
  | none => .missing

/-- Model of `pd.to_numeric(v, errors='coerce')` without `astype(str)`, used for
`trimestre` (src/app.py:203,240). -/
def to_numeric_cell (v : Cell) : Cell :=
  match v with
  | .missing => .missing
  | .num x => .num x
  | .str s =>
    match parseNum s with
    | some q => .num q
    | none => .missing

/-- Lowercasing table: the ASCII letters plus the accented uppercase letters
that occur in the column headers (Python `str.lower()`; other Unicode
letters never appear in the data). -/
def lowerPairs : List (Char × Char) :=
  [('A', 'a'), ('B', 'b'), ('C', 'c'), ('D', 'd'), ('E', 'e'), ('F', 'f'),
   ('G', 'g'), ('H', 'h'), ('I', 'i'), ('J', 'j'), ('K', 'k'), ('L', 'l'),
   ('M', 'm'), ('N', 'n'), ('O', 'o'), ('P', 'p'), ('Q', 'q'), ('R', 'r'),
   ('S', 's'), ('T', 't'), ('U', 'u'), ('V', 'v'), ('W', 'w'), ('X', 'x'),
   ('Y', 'y'), ('Z', 'z'),
   ('Á', 'á'), ('É', 'é'), ('Í', 'í'), ('Ó', 'ó'), ('Ú', 'ú'), ('Ñ', 'ñ')]

/-- Model of `str.lower()` on one character. -/
def lowerChar (c : Char) : Char :=
  ((lowerPairs.find? (fun p => p.1 == c)).map (fun p => p.2)).getD c

/-- Replace the single character `a` by `b`. -/
def rp (a b c : Char) : Char := if c = a then b else c

/-- Model of `.str.replace(a, b)` over a whole name, for single characters. -/
def replaceChar (a b : Char) (cs : List Char) : List Char := cs.map (rp a b)

/-- The per-character effect of src/app.py:173: `str.lower()` followed by
the six literal single-character replacements, in source order. -/
def canonChar (c : Char) : Char :=
  rp '-' '_' (rp '.' '_' (rp 'í' 'i' (rp 'ñ' 'n' (rp 'ó' 'o' (rp ' ' '_' (lowerChar c))))))

/-- src/app.py:173 as written: sequential whole-name replacement passes. -/
def canonCore (cs : List Char) : List Char :=
  replaceChar '-' '_' (replaceChar '.' '_' (replaceChar 'í' 'i' (replaceChar 'ñ' 'n'
    (replaceChar 'ó' 'o' (replaceChar ' ' '_' (cs.map lowerChar))))))

/-- Model of `.str.replace('__+', '_', regex=True)` (src/app.py:174): collapse every
run of two or more underscores to a single one.  The flag records whether
the previously kept character was an underscore. -/
def collapseU : Bool → List Char → List Char
  | _, [] => []
  | prevU, c :: cs =>
    if c = '_' then
      if prevU then collapseU true cs else '_' :: collapseU true cs
    else c :: collapseU false cs

/-- Column-name canonicalization (src/app.py:173-174). -/
def canonName (s : String) : String :=
  ⟨collapseU false (canonCore s.data)⟩

/-- A pandas dataframe: named columns over positional rows.  Rows are stored
positionally, so renaming columns does not touch the data. -/
structure DataFrame where
  cols : List String
  rows : List (List Cell)
deriving DecidableEq

/-- Well-formedness: every row has exactly one cell per column. -/
def DataFrame.wf (df : DataFrame) : Bool :=
  df.rows.all (fun r => r.length == df.cols.length)

/-- Index of the (first) column labelled `c`. -/
def colIdx (c : String) : List String → Option ℕ
  | [] => none
  | x :: xs => if x = c then some 0 else (colIdx c xs).map (· + 1)

/-- Presence test `c in df.columns`. -/
def DataFrame.hasCol (df : DataFrame) (c : String) : Bool :=
  (colIdx c df.cols).isSome

/-- Read `df[c]` as a list of cells (`none` when the column is absent). -/
def DataFrame.getCol (df : DataFrame) (c : String) : Option (List Cell) :=
  (colIdx c df.cols).map (fun i => df.rows.map (fun r => r.getD i .missing))

/-- Write `df[c] = <series>`: writing a column, each new cell computed from its
own row.  As in pandas, an existing label is overwritten in place and a new
label is appended on the right. -/
def DataFrame.setCol (df : DataFrame) (c : String) (f : List Cell → Cell) : DataFrame :=
  match colIdx c df.cols with
  | some i => ⟨df.cols, df.rows.map (fun r => r.set i (f r))⟩
  | none => ⟨df.cols ++ [c], df.rows.map (fun r => r ++ [f r])⟩

/-- The cell of row `r` in column `c` (NaN when the column is absent). -/
def cellAt (cols : List String) (c : String) (r : List Cell) : Cell :=
  match colIdx c cols with
  | some i => r.getD i .missing
  | none => .missing

/-- Model of `if c in df.columns: df[c] = g(df[c])` — presence-guarded per-column
cleaning, the shape of every coercion in `process_dataframe`. -/
def DataFrame.coerceCol (df : DataFrame) (c : String) (g : Cell → Cell) : DataFrame :=
  if df.hasCol c then df.setCol c (fun r => g (cellAt df.cols c r)) else df

/-- Model of `if src in df.columns: df[tgt] = g(df[src])` — the year rewrites of the
general and rural branches (src/app.py:181-182,190-191). -/
def DataFrame.coerceColFrom (df : DataFrame) (tgt src : String) (g : Cell → Cell) : DataFrame :=
  if df.hasCol src then df.setCol tgt (fun r => g (cellAt df.cols src r)) else df

/-- The column-renaming step `df.columns = df.columns...` (src/app.py:173-174). -/
def normalizeCols (df : DataFrame) : DataFrame :=
  ⟨df.cols.map canonName, df.rows⟩

/-- Numeric value of a cell with NaN as zero: how `sum(axis=1)` (skipna)
sees one cell.  Non-numeric strings never reach a sum in the pipeline —
every summed column has just been coerced. -/
def Cell.q : Cell → ℚ
  | .num x => x
  | _ => 0

/-- Model of `df[cs].sum(axis=1)` on one row. -/
def rowSum (cols : List String) (cs : List String) (r : List Cell) : ℚ :=
  (cs.map (fun c => (cellAt cols c r).q)).sum

/-- Model of `.str.replace(pat, repl, regex=False)` on one cell: substring
replacement on strings; as with any pandas `.str` method, non-string cells
become NaN. -/
def Cell.strReplace (pat repl : String) : Cell → Cell
  | .str s => .str (s.replace pat repl)
  | _ => .missing

/-- Model of `.str.strip()` on one cell. -/
def Cell.strStrip : Cell → Cell
  | .str s => .str ⟨trimChars s.data⟩
  | _ => .missing

/-- The CMC-MCY department spelling table (src/app.py:218-227). -/
def dept_mapping : List (String × String) :=
  [("ATLANTICO", "ATLÁNTICO"), ("BOGOTA D. C.", "BOGOTÁ, D.C."),
   ("BOLIVAR", "BOLÍVAR"), ("BOYACA", "BOYACÁ"), ("CAQUETA", "CAQUETÁ"),
   ("CORDOBA", "CÓRDOBA"), ("GUAINIA", "GUAINÍA"), ("QUINDIO", "QUINDÍO")]

/-- Model of `Series.replace(dict)`: exact-value substitution, other cells kept. -/
def Cell.replaceExact (m : List (String × String)) : Cell → Cell
  | .str s => .str (((m.find? (fun p => p.1 == s)).map (fun p => p.2)).getD s)
  | v => v

/-- src/app.py:205. -/
def housing_cols : List String := ["nueva_vis", "nueva_no_vis", "usada_vis", "usada_no_vis"]

/-- src/app.py:242-247. -/
def force_cols : List String :=
  ["vis_policia_nacional", "vis_ejercito_nacional", "vis_fuerza_aerea_colombiana",
   "vis_armada_nacional", "vis_otros",
   "no_vis_policia_nacional", "no_vis_ejercito_nacional", "no_vis_fuerza_aerea_colombiana",
   "no_vis_armada_nacional", "no_vis_otros"]

/-- Model of `c.startswith(p)`. -/
def strStartsWith (c p : String) : Bool := p.data.isPrefixOf c.data

/-- The five `dataset_type` values of `process_dataframe`. -/
inductive Category where
  | general | rural | military | cmc_mcy | used_housing
deriving DecidableEq

/-- Model of `process_dataframe` (src/app.py:167-262): canonicalize the column names,
then apply the per-category cleaning, coercion and derivation steps in
source order. -/
def process_dataframe (df0 : DataFrame) (dataset_type : Category) : DataFrame :=
  let df := normalizeCols df0
  match dataset_type with
  | .general =>
    let df := df.coerceCol "hogares" coerce_numeric
    let df := df.coerceCol "valor_asignado" coerce_numeric
    df.coerceColFrom "a_o_de_asignaci_n" "ano_de_asignacion" coerce_numeric_plain
  | .rural =>
    let df := df.coerceCol "no_sfv_asignados" coerce_numeric
    let df := df.coerceCol "valor_asignado" coerce_numeric
    df.coerceColFrom "a_o_de_asignacion" "ano_de_asignacion" coerce_numeric_plain
  | .military =>
    let df := df.coerceCol "departamento"
      (Cell.strReplace "archipielago_de_san_andres_providencia_y_santa_ca"
        "archipielago_de_san_andres_providencia_y_santa_catalina")
    let df := df.coerceCol "ano" coerce_numeric_plain
    let df := df.coerceCol "trimestre" to_numeric_cell
    let df := housing_cols.foldl (fun d c => d.coerceCol c coerce_numeric_plain) df
    let existing := housing_cols.filter (fun c => df.hasCol c)
    if 0 < existing.length then
      df.setCol "total_subsidios" (fun r => .num (rowSum df.cols existing r))
    else
      df.setCol "total_subsidios" (fun _ => .num 0)
  | .cmc_mcy =>
    let df := df.coerceCol "departamento" Cell.strStrip
    let df := df.coerceCol "departamento" (Cell.replaceExact dept_mapping)
    let df := df.coerceCol "no_sfv_asignados" coerce_numeric_plain
    let df := df.coerceCol "valor_asignado" coerce_numeric
    df.coerceCol "ano_de_asignacion" coerce_numeric_plain
  | .used_housing =>
    let df := df.coerceCol "ano" coerce_numeric_plain
    let df := df.coerceCol "trimestre" to_numeric_cell
    let df := force_cols.foldl (fun d c => d.coerceCol c coerce_numeric_plain) df
    let vis := force_cols.filter (fun c => strStartsWith c "vis_" && df.hasCol c)
    let no_vis := force_cols.filter (fun c => strStartsWith c "no_vis_" && df.hasCol c)
    let df :=
      if vis ≠ [] then df.setCol "total_vis" (fun r => .num (rowSum df.cols vis r)) else df
    let df :=
      if no_vis ≠ [] then
        df.setCol "total_no_vis" (fun r => .num (rowSum df.cols no_vis r))
      else df
    if vis ≠ [] ∨ no_vis ≠ [] then
      df.setCol "total_subsidios" (fun r => .num (rowSum df.cols (vis ++ no_vis) r))
    else df

/-- Message severities surfaced through the UI during a fetch
(`st.warning` / `st.error`). -/
inductive MsgKind where
  | warning | error
deriving DecidableEq

/-- The fixed page size of the paginated API fetcher (src/app.py:56). -/
def PAGE_LIMIT : ℕ := 900

/-- The pagination loop of `fetch_data_from_api` (src/app.py:64-87), driven
by the sequence of page responses: `none` is a request that raised
`RequestException` (caught: `st.error`, then `break`), `some data` a
successful JSON page.  Returns the accumulated raw rows, the offsets
actually requested, and the severities of the messages surfaced.  (The
running-count progress text is presentation and not modelled.) -/
def fetch_pages : List (Option (List (List Cell))) → ℕ → List (List Cell) →
    List ℕ → List MsgKind → List (List Cell) × List ℕ × List MsgKind
  | [], _, acc, reqs, msgs => (acc, reqs, msgs)
  | none :: _, offset, acc, reqs, msgs => (acc, reqs ++ [offset], msgs ++ [.error])
  | some data :: rest, offset, acc, reqs, msgs =>
    if data.isEmpty then (acc, reqs ++ [offset], msgs)
    else if data.length < PAGE_LIMIT then (acc ++ data, reqs ++ [offset], msgs)
    else fetch_pages rest (offset + PAGE_LIMIT) (acc ++ data) (reqs ++ [offset]) msgs

/-- Model of `fetch_data_from_api` (src/app.py:48-100): run the pagination loop from
offset 0, then normalize the accumulated records as the general category
(`pd.DataFrame(all_data)` is modelled as rows over the API's fixed field
list `apiCols`); an empty accumulation yields an empty dataframe. -/
def fetch_data_from_api (apiCols : List String)
    (responses : List (Option (List (List Cell)))) :
    DataFrame × List ℕ × List MsgKind :=
  let out := fetch_pages responses 0 [] [] []
  (if out.1 ≠ [] then process_dataframe ⟨apiCols, out.1⟩ .general else ⟨[], []⟩,
   out.2.1, out.2.2)

/-- The snapshot date embedded in the CSV filenames (src/app.py:20). -/
def CSV_DATE : String := "20260217"

/-- The two optional Unix-timestamp fields of the API metadata document. -/
structure ApiMetadata where
  rowsUpdatedAt : Option ℕ
  dataUpdatedAt : Option ℕ

/-- Model of `get_api_last_update` (src/app.py:24-46): `resp = none` models an
unreachable metadata endpoint (the exception path, surfaced as a warning);
otherwise the primary field `rowsUpdatedAt` is tried, then `dataUpdatedAt`;
`fmt` is `datetime.fromtimestamp(..).strftime('%Y%m%d')`.  Returns `none`
when unreachable or when both fields are absent. -/
def get_api_last_update (resp : Option ApiMetadata) (fmt : ℕ → String) : Option String :=
  match resp with
  | none => none
  | some md =>
    match md.rowsUpdatedAt with
    | some ts => some (fmt ts)
    | none =>
      match md.dataUpdatedAt with
      | some ts => some (fmt ts)
      | none => none

/-- The two data sources `load_data` can pick. -/
inductive Fetcher where
  | api | csv
deriving DecidableEq

/-- Python's lexicographic string order `a < b`, by code point, over the
character lists. -/
def charsLt : List Char → List Char → Bool
  | _, [] => false
  | [], _ :: _ => true
  | a :: as, b :: bs => decide (a < b) || (a == b && charsLt as bs)

/-- Python `a > b` on strings. -/
def strGt (a b : String) : Bool := charsLt b.data a.data

/-- The source selection of `load_data` (src/app.py:264-280), returning the
fetcher used and the as-of date reported.  `api_date` is the result of
`get_api_last_update`; `now` is `datetime.now().strftime('%Y%m%d')`.  The
Python condition `api_date and api_date > CSV_DATE` is truthiness
(non-`None`, non-empty) plus lexicographic string comparison. -/
def load_data (force_api : Bool) (api_date : Option String) (now : String) :
    Fetcher × String :=
  if force_api then (.api, now)
  else
    match api_date with
    | some d => if !(d == "") && strGt d CSV_DATE then (.api, d) else (.csv, CSV_DATE)
    | none => (.csv, CSV_DATE)

/-- The year-slider options (src/app.py:429-432): `dropna()`, keep values
`> 1900`, `unique()`, `sorted()`.  The column holds numbers or NaN at this
point; string cells would make the pandas comparison raise and are dropped
with the NaNs here. -/
def yearOptions (cells : List Cell) : List ℚ :=
  List.insertionSort (· ≤ ·)
    (((cells.filterMap (fun c => match c with | .num x => some x | _ => none)).filter
      (fun x => decide (1900 < x))).dedup)

/-- A cell that is numeric or NaN — never a raw string. -/
def Cell.numOrMissing : Cell → Bool
  | .str _ => false
  | _ => true

/-- States that `out` is obtained from `df` by transforming every row in place: same
row count, same order, each output row a function of the corresponding
input row alone. -/
def Rowwise (df out : DataFrame) : Prop :=
  ∃ g, out.rows = df.rows.map g

theorem colIdx_nil {c : String} : colIdx c [] = none := rfl

theorem colIdx_cons {c x : String} {xs : List String} :
    colIdx c (x :: xs) = if x = c then some 0 else (colIdx c xs).map (· + 1) := rfl

theorem colIdx_lt_length {c : String} :
    ∀ {cols : List String} {i : ℕ}, colIdx c cols = some i → i < cols.length := by
  intro cols
  induction cols with
  | nil => intro i h; simp [colIdx_nil] at h
  | cons x xs ih =>
    intro i h
    rw [colIdx_cons] at h
    by_cases hx : x = c
    · rw [if_pos hx] at h
      obtain rfl : (0 : ℕ) = i := by simpa using h
      simp
    · rw [if_neg hx, Option.map_eq_some'] at h
      obtain ⟨j, hj, rfl⟩ := h
      have := ih hj
      simp only [List.length_cons]
      omega

theorem colIdx_getD {c : String} :
    ∀ {cols : List String} {i : ℕ}, colIdx c cols = some i → cols.getD i "" = c := by
  intro cols
  induction cols with
  | nil => intro i h; simp [colIdx_nil] at h
  | cons x xs ih =>
    intro i h
    rw [colIdx_cons] at h
    by_cases hx : x = c
    · rw [if_pos hx] at h
      obtain rfl : (0 : ℕ) = i := by simpa using h
      simpa using hx
    · rw [if_neg hx, Option.map_eq_some'] at h
      obtain ⟨j, hj, rfl⟩ := h
      simpa using ih hj

theorem colIdx_append {c : String} :
    ∀ (cols m : List String),
      colIdx c (cols ++ m) =
        match colIdx c cols with
        | some i => some i
        | none => (colIdx c m).map (· + cols.length) := by
  intro cols m
  induction cols with
  | nil =>
    cases hm : colIdx c m with
    | some j => simp [colIdx_nil, hm]
    | none => simp [colIdx_nil, hm]
  | cons x xs ih =>
    by_cases hx : x = c
    · simp [colIdx_cons, hx]
    · rw [List.cons_append, colIdx_cons, if_neg hx, ih, colIdx_cons, if_neg hx]
      cases hxs : colIdx c xs with
      | some i => simp
      | none =>
        cases hm : colIdx c m with
        | some j =>
          simp only [Option.map_some', Option.map_map, List.length_cons]
          simp [Function.comp]
          omega
        | none => simp

theorem colIdx_append_left {c : String} {cols : List String} {i : ℕ}
    (h : colIdx c cols = some i) (m : List String) : colIdx c (cols ++ m) = some i := by
  rw [colIdx_append, h]

theorem colIdx_append_self {c : String} {cols : List String}
    (h : colIdx c cols = none) : colIdx c (cols ++ [c]) = some cols.length := by
  rw [colIdx_append, h]
  simp [colIdx_cons, colIdx_nil]

theorem colIdx_append_ne {c c' : String} {cols : List String}
    (h : colIdx c cols = none) (hne : c' ≠ c) : colIdx c (cols ++ [c']) = none := by
  rw [colIdx_append, h]
  simp [colIdx_cons, colIdx_nil, hne]

theorem colIdx_ne_of_ne {c c' : String} {cols : List String} {i j : ℕ}
    (hc : colIdx c cols = some i) (hc' : colIdx c' cols = some j) (hne : c ≠ c') :
    i ≠ j := by
  intro hij
  subst hij
  exact hne ((colIdx_getD hc).symm.trans (colIdx_getD hc'))

theorem getD_set_self {α : Type} :
    ∀ (l : List α) (i : ℕ) (a d : α), i < l.length → (l.set i a).getD i d = a := by
  intro l
  induction l with
  | nil => intro i a d h; simp at h
  | cons x xs ih =>
    intro i a d h
    cases i with
    | zero => simp
    | succ j =>
      simp only [List.set_cons_succ, List.getD_cons_succ]
      exact ih j a d (by simpa using h)

theorem getD_set_ne {α : Type} :
    ∀ (l : List α) (i j : ℕ) (a d : α), i ≠ j → (l.set j a).getD i d = l.getD i d := by
  intro l
  induction l with
  | nil => intro i j a d h; simp
  | cons x xs ih =>
    intro i j a d h
    cases j with
    | zero =>
      cases i with
      | zero => exact absurd rfl h
      | succ i2 => simp
    | succ j2 =>
      cases i with
      | zero => simp
      | succ i2 =>
        simp only [List.set_cons_succ, List.getD_cons_succ]
        exact ih i2 j2 a d (by omega)

theorem getD_append_lt {α : Type} :
    ∀ (l m : List α) (i : ℕ) (d : α), i < l.length → (l ++ m).getD i d = l.getD i d := by
  intro l
  induction l with
  | nil => intro m i d h; simp at h
  | cons x xs ih =>
    intro m i d h
    cases i with
    | zero => simp
    | succ j =>
      simp only [List.cons_append, List.getD_cons_succ]
      exact ih m j d (by simpa using h)

theorem getD_append_len {α : Type} :
    ∀ (l : List α) (a d : α), (l ++ [a]).getD l.length d = a := by
  intro l
  induction l with
  | nil => intro a d; simp
  | cons x xs ih =>
    intro a d
    simp only [List.cons_append, List.length_cons, List.getD_cons_succ]
    exact ih a d

theorem wf_iff {df : DataFrame} :
    df.wf = true ↔ ∀ r ∈ df.rows, r.length = df.cols.length := by
  simp [DataFrame.wf, List.all_eq_true]

theorem hasCol_iff {df : DataFrame} {c : String} :
    df.hasCol c = true ↔ ∃ i, colIdx c df.cols = some i := by
  simp [DataFrame.hasCol, Option.isSome_iff_exists]

theorem setCol_of_some {df : DataFrame} {c : String} {f : List Cell → Cell} {i : ℕ}
    (h : colIdx c df.cols = some i) :
    df.setCol c f = ⟨df.cols, df.rows.map (fun r => r.set i (f r))⟩ := by
  simp only [DataFrame.setCol, h]

theorem setCol_of_none {df : DataFrame} {c : String} {f : List Cell → Cell}
    (h : colIdx c df.cols = none) :
    df.setCol c f = ⟨df.cols ++ [c], df.rows.map (fun r => r ++ [f r])⟩ := by
  simp only [DataFrame.setCol, h]

theorem setCol_wf {df : DataFrame} {c : String} {f : List Cell → Cell}
    (h : df.wf = true) : (df.setCol c f).wf = true := by
  rw [wf_iff] at h ⊢
  cases hc : colIdx c df.cols with
  | some i =>
    rw [setCol_of_some hc]
    intro r hr
    simp only [List.mem_map] at hr
    obtain ⟨r0, hr0, rfl⟩ := hr
    simp [List.length_set, h r0 hr0]
  | none =>
    rw [setCol_of_none hc]
    intro r hr
    simp only [List.mem_map] at hr
    obtain ⟨r0, hr0, rfl⟩ := hr
    simp [h r0 hr0]

theorem coerceCol_wf {df : DataFrame} {c : String} {g : Cell → Cell}
    (h : df.wf = true) : (df.coerceCol c g).wf = true := by
  unfold DataFrame.coerceCol
  by_cases hb : df.hasCol c = true
  · rw [if_pos hb]; exact setCol_wf h
  · rw [if_neg hb]; exact h

theorem coerceColFrom_wf {df : DataFrame} {tgt src : String} {g : Cell → Cell}
    (h : df.wf = true) : (df.coerceColFrom tgt src g).wf = true := by
  unfold DataFrame.coerceColFrom
  by_cases hb : df.hasCol src = true
  · rw [if_pos hb]; exact setCol_wf h
  · rw [if_neg hb]; exact h

theorem normalizeCols_wf {df : DataFrame} (h : df.wf = true) :
    (normalizeCols df).wf = true := by
  rw [wf_iff] at h ⊢
  simpa [normalizeCols] using h

theorem coerceCol_cols (df : DataFrame) (c : String) (g : Cell → Cell) :
    (df.coerceCol c g).cols = df.cols := by
  unfold DataFrame.coerceCol
  by_cases hb : df.hasCol c = true
  · rw [if_pos hb]
    obtain ⟨i, hi⟩ := hasCol_iff.mp hb
    rw [setCol_of_some hi]
  · rw [if_neg hb]

theorem getCol_setCol_self {df : DataFrame} {c : String} {f : List Cell → Cell}
    (h : df.wf = true) : (df.setCol c f).getCol c = some (df.rows.map f) := by
  rw [wf_iff] at h
  cases hc : colIdx c df.cols with
  | some i =>
    rw [setCol_of_some hc]
    unfold DataFrame.getCol
    simp only [hc, Option.map_some']
    congr 1
    rw [List.map_map]
    apply List.map_congr_left
    intro r hr
    have hil : i < r.length := (h r hr) ▸ colIdx_lt_length hc
    simp only [Function.comp]
    exact getD_set_self _ _ _ _ hil
  | none =>
    rw [setCol_of_none hc]
    unfold DataFrame.getCol
    rw [colIdx_append_self hc]
    simp only [Option.map_some']
    congr 1
    rw [List.map_map]
    apply List.map_congr_left
    intro r hr
    have hlen : r.length = df.cols.length := h r hr
    simp only [Function.comp]
    rw [← hlen]
    exact getD_append_len _ _ _

theorem getCol_setCol_ne {df : DataFrame} {cw c : String} {f : List Cell → Cell}
    (hne : cw ≠ c) (h : df.wf = true) :
    (df.setCol cw f).getCol c = df.getCol c := by
  rw [wf_iff] at h
  cases hcw : colIdx cw df.cols with
  | some j =>
    rw [setCol_of_some hcw]
    unfold DataFrame.getCol
    cases hc : colIdx c df.cols with
    | some i =>
      simp only [hc, Option.map_some']
      congr 1
      rw [List.map_map]
      apply List.map_congr_left
      intro r hr
      have hij : i ≠ j := colIdx_ne_of_ne hc hcw (Ne.symm hne)
      simp only [Function.comp]
      exact getD_set_ne _ _ _ _ _ hij
    | none => simp [hc]
  | none =>
    rw [setCol_of_none hcw]
    unfold DataFrame.getCol
    cases hc : colIdx c df.cols with
    | some i =>
      rw [colIdx_append_left hc]
      simp only [hc, Option.map_some']
      congr 1
      rw [List.map_map]
      apply List.map_congr_left
      intro r hr
      have hil : i < r.length := (h r hr) ▸ colIdx_lt_length hc
      simp only [Function.comp]
      exact getD_append_lt _ _ _ _ hil
    | none =>
      rw [colIdx_append_ne hc hne]
      simp [hc]

theorem getCol_coerceCol_ne {df : DataFrame} {cw c : String} {g : Cell → Cell}
    (hne : cw ≠ c) (h : df.wf = true) :
    (df.coerceCol cw g).getCol c = df.getCol c := by
  unfold DataFrame.coerceCol
  by_cases hb : df.hasCol cw = true
  · rw [if_pos hb]; exact getCol_setCol_ne hne h
  · rw [if_neg hb]

theorem getCol_coerceColFrom_ne {df : DataFrame} {tgt src c : String} {g : Cell → Cell}
    (hne : tgt ≠ c) (h : df.wf = true) :
    (df.coerceColFrom tgt src g).getCol c = df.getCol c := by
  unfold DataFrame.coerceColFrom
  by_cases hb : df.hasCol src = true
  · rw [if_pos hb]; exact getCol_setCol_ne hne h
  · rw [if_neg hb]

theorem getCol_coerceCol_self {df : DataFrame} {c : String} {g : Cell → Cell}
    (hb : df.hasCol c = true) (h : df.wf = true) :
    (df.coerceCol c g).getCol c = some (df.rows.map (fun r => g (cellAt df.cols c r))) := by
  unfold DataFrame.coerceCol
  rw [if_pos hb]
  exact getCol_setCol_self h

theorem rowwise_refl (df : DataFrame) : Rowwise df df := ⟨id, by simp⟩

theorem rowwise_trans {a b c : DataFrame} : Rowwise a b → Rowwise b c → Rowwise a c
  | ⟨g1, h1⟩, ⟨g2, h2⟩ => ⟨g2 ∘ g1, by rw [h2, h1, List.map_map]⟩

theorem rowwise_setCol (df : DataFrame) (c : String) (f : List Cell → Cell) :
    Rowwise df (df.setCol c f) := by
  cases hc : colIdx c df.cols with
  | some i => rw [setCol_of_some hc]; exact ⟨_, rfl⟩
  | none => rw [setCol_of_none hc]; exact ⟨_, rfl⟩

theorem rowwise_coerceCol (df : DataFrame) (c : String) (g : Cell → Cell) :
    Rowwise df (df.coerceCol c g) := by
  unfold DataFrame.coerceCol
  by_cases hb : df.hasCol c = true
  · rw [if_pos hb]; exact rowwise_setCol df c _
  · rw [if_neg hb]; exact rowwise_refl df

theorem rowwise_coerceColFrom (df : DataFrame) (tgt src : String) (g : Cell → Cell) :
    Rowwise df (df.coerceColFrom tgt src g) := by
  unfold DataFrame.coerceColFrom
  by_cases hb : df.hasCol src = true
  · rw [if_pos hb]; exact rowwise_setCol df tgt _
  · rw [if_neg hb]; exact rowwise_refl df

theorem rowwise_normalizeCols (df : DataFrame) : Rowwise df (normalizeCols df) :=
  ⟨id, by simp [normalizeCols]⟩

theorem rowwise_foldl (cs : List String) (g : Cell → Cell) :
    ∀ df : DataFrame, Rowwise df (cs.foldl (fun d c => d.coerceCol c g) df) := by
  induction cs with
  | nil => intro df; exact rowwise_refl df
  | cons c cs ih =>
    intro df
    exact rowwise_trans (rowwise_coerceCol df c g) (ih _)

theorem coerce_numeric_numOrMissing (v : Cell) :
    (coerce_numeric v).numOrMissing = true := by
  unfold coerce_numeric
  split <;> rfl

theorem coerce_numeric_plain_numOrMissing (v : Cell) :
    (coerce_numeric_plain v).numOrMissing = true := by
  unfold coerce_numeric_plain
  split <;> rfl

theorem to_numeric_cell_numOrMissing (v : Cell) :
    (to_numeric_cell v).numOrMissing = true := by
  unfold to_numeric_cell
  split
  · rfl
  · rfl
  · split <;> rfl

theorem charsLt_nil (l : List Char) : charsLt l [] = false := by
  cases l <;> rfl

/-- C1: `coerce_numeric` strips the characters `','`, `'$'` and `'.'` and
parses the remainder as a float; it never yields a raw string or an error
(only a number or Missing), and in particular
`coerce_numeric "1.234.567" = 1234567.0`, `coerce_numeric "$45,000" =
45000.0`, `coerce_numeric "" = Missing` and
`coerce_numeric Missing = Missing`. -/
theorem coerce_numeric_spec :
    (∀ v : Cell, coerce_numeric v = .missing ∨ ∃ q, coerce_numeric v = .num q)
    ∧ coerce_numeric (.str "1.234.567") = .num 1234567
    ∧ coerce_numeric (.str "$45,000") = .num 45000
    ∧ coerce_numeric (.str "") = .missing
    ∧ coerce_numeric .missing = .missing := by
  refine ⟨fun v => ?_, by decide, by decide, by decide, by decide⟩
  unfold coerce_numeric
  split
  · exact Or.inr ⟨_, rfl⟩
  · exact Or.inl rfl

/-- C3: with `force_refresh` false, the general category picks the API
fetcher iff the metadata date is present and lexicographically strictly
greater than the snapshot date constant `"20260217"`; when the API date is
equal, older, or Missing (metadata unreachable, or lacking both timestamp
fields), the CSV snapshot fetcher is picked. -/
theorem load_data_selects_api_iff_newer :
    ∀ (resp : Option ApiMetadata) (fmt : ℕ → String) (now : String),
      ((load_data false (get_api_last_update resp fmt) now).1 = .api ↔
        ∃ d, get_api_last_update resp fmt = some d ∧ strGt d CSV_DATE = true)
      ∧ get_api_last_update none fmt = none
      ∧ get_api_last_update (some ⟨none, none⟩) fmt = none
      ∧ load_data false (some "20260301") now = (.api, "20260301")
      ∧ load_data false (some "20260101") now = (.csv, CSV_DATE)
      ∧ load_data false none now = (.csv, CSV_DATE) := by
  intro resp fmt now
  refine ⟨?_, rfl, rfl, rfl, rfl, rfl⟩
  constructor
  · intro h
    cases hX : get_api_last_update resp fmt with
    | none =>
      rw [hX] at h
      simp [load_data] at h
    | some d =>
      rw [hX] at h
      by_cases hc : (!(d == "") && strGt d CSV_DATE) = true
      · exact ⟨d, rfl, (Bool.and_eq_true _ _ |>.mp hc).2⟩
      · simp [load_data, hc] at h
  · rintro ⟨d, hd, hgt⟩
    have hne : d ≠ "" := by
      intro he
      subst he
      have hf : strGt "" CSV_DATE = false := by decide
      rw [hf] at hgt
      exact Bool.false_ne_true hgt
    rw [hd]
    simp [load_data, hgt, hne]

/-- C5 counterexample: the year coercion applied during normalization does
not reject values ≤ 1900 — a general-category row with
`ano_de_asignacion = "1899"` normalizes to the numeric year 1899, not
Missing. -/
theorem coerce_year_keeps_1899 :
    (process_dataframe ⟨["ano_de_asignacion"], [[.str "1899"]]⟩ .general).getCol
        "a_o_de_asignaci_n" = some [.num 1899]
    ∧ Cell.num 1899 ≠ Cell.missing := by decide

/-- C5 (amended): normalization's year coercion keeps every parsed value
(`"1899" ↦ 1899`, `"2022" ↦ 2022`); years ≤ 1900 are discarded only later,
when the year-filter options are built (src/app.py:429-432), where exactly
the numeric values > 1900 survive. -/
theorem coerce_year_spec :
    ((process_dataframe ⟨["ano_de_asignacion"], [[.str "1899"]]⟩ .general).getCol
        "a_o_de_asignaci_n" = some [.num 1899])
    ∧ ((process_dataframe ⟨["ano_de_asignacion"], [[.str "2022"]]⟩ .general).getCol
        "a_o_de_asignaci_n" = some [.num 2022])
    ∧ (∀ (cells : List Cell) (q : ℚ),
        q ∈ yearOptions cells ↔ Cell.num q ∈ cells ∧ 1900 < q) := by
  refine ⟨by decide, by decide, fun cells q => ?_⟩
  unfold yearOptions
  rw [(List.perm_insertionSort _ _).mem_iff]
  simp only [List.mem_dedup, List.mem_filter, List.mem_filterMap, decide_eq_true_eq]
  constructor
  · rintro ⟨⟨c, hc, hcq⟩, hq⟩
    cases c with
    | num x =>
      simp only [Option.some.injEq] at hcq
      subst hcq
      exact ⟨hc, hq⟩
    | missing => simp at hcq
    | str s => simp at hcq
  · rintro ⟨hc, hq⟩
    exact ⟨⟨Cell.num q, hc, rfl⟩, hq⟩

/-- C6 counterexample: canonicalization does not transliterate every
accented character — `'á'` (as in a header "Área") survives lowercasing
untouched, where the claim requires `á→a`. -/
theorem canonName_keeps_accented_a :
    canonName "Área" = "área" ∧ "área" ≠ "area" := by decide

/-- C6 (amended): canonicalization lowercases, turns spaces, dots and
dashes into underscores and collapses repeated underscores, but
transliterates only the three accented characters `ó→o`, `ñ→n`, `í→i`
that src/app.py:173 replaces; other accented characters (`á`, `é`, `ú`, …)
are kept as-is. -/
theorem canonName_spec :
    canonName "Año De Asignación" = "ano_de_asignacion"
    ∧ canonName "No. SFV - Asignados" = "no_sfv_asignados"
    ∧ canonName "TRIMESTRE" = "trimestre"
    ∧ canonName "Índice" = "indice"
    ∧ canonName "Área" = "área"
    ∧ canonName "Crédito" = "crédito"
    ∧ canonName "a__b___c" = "a_b_c" := by decide

/-- C8: on API-shaped general input, the declared numeric year column
`a_o_de_asignaci_n` (the Socrata field name the rest of the app reads,
src/app.py:427) is never coerced — normalization leaves the raw punctuated
string in place, violating the numeric-or-Missing invariant the year
filter at src/app.py:429-431 relies on. -/
theorem api_year_column_left_raw :
    (process_dataframe ⟨["a_o_de_asignaci_n"], [[.str "1.899"]]⟩ .general).getCol
        "a_o_de_asignaci_n" = some [.str "1.899"]
    ∧ (Cell.str "1.899").numOrMissing = false := by decide

/-- C2 counterexample: for the UsedHousing category with every referenced
sub-column absent, the derived totals are not produced at all — no
zero-valued `total_vis`/`total_no_vis`/`total_subsidios` column appears in
the output. -/
theorem used_housing_totals_not_produced :
    ("total_vis" ∉ (process_dataframe ⟨["ano"], [[.num 2022]]⟩ .used_housing).cols)
    ∧ ("total_no_vis" ∉ (process_dataframe ⟨["ano"], [[.num 2022]]⟩ .used_housing).cols)
    ∧ ("total_subsidios" ∉ (process_dataframe ⟨["ano"], [[.num 2022]]⟩ .used_housing).cols) := by
  decide

theorem fetch_pages_none (rest : List (Option (List (List Cell)))) (offset : ℕ)
    (acc : List (List Cell)) (reqs : List ℕ) (msgs : List MsgKind) :
    fetch_pages (none :: rest) offset acc reqs msgs =
      (acc, reqs ++ [offset], msgs ++ [.error]) := rfl

theorem fetch_pages_some (data : List (List Cell))
    (rest : List (Option (List (List Cell)))) (offset : ℕ)
    (acc : List (List Cell)) (reqs : List ℕ) (msgs : List MsgKind) :
    fetch_pages (some data :: rest) offset acc reqs msgs =
      if data.isEmpty then (acc, reqs ++ [offset], msgs)
      else if data.length < PAGE_LIMIT then (acc ++ data, reqs ++ [offset], msgs)
      else fetch_pages rest (offset + PAGE_LIMIT) (acc ++ data) (reqs ++ [offset]) msgs := rfl

/-- C4: the paginated fetcher requests pages of fixed size 900 starting at
offset 0 and advancing by 900 after each full page; it stops exactly on a
short page — for page sizes [900, 900, 400] it makes exactly 3 requests (at
offsets 0, 900, 1800) keeping all records, and for [900, 900, 0] it also
makes exactly 3 requests, keeping the first two pages — regardless of any
further responses the oracle could serve. -/
theorem fetch_pages_termination (p1 p2 p3 q3 : List (List Cell))
    (rest rest2 : List (Option (List (List Cell))))
    (h1 : p1.length = 900) (h2 : p2.length = 900) (h3 : p3.length = 400)
    (hq : q3.length = 0) :
    fetch_pages (some p1 :: some p2 :: some p3 :: rest) 0 [] [] [] =
      (p1 ++ p2 ++ p3, [0, 900, 1800], [])
    ∧ fetch_pages (some p1 :: some p2 :: some q3 :: rest2) 0 [] [] [] =
      (p1 ++ p2, [0, 900, 1800], []) := by
  have ne1 : p1.isEmpty = false := by
    cases p1
    · simp at h1
    · rfl
  have ne2 : p2.isEmpty = false := by
    cases p2
    · simp at h2
    · rfl
  have ne3 : p3.isEmpty = false := by
    cases p3
    · simp at h3
    · rfl
  obtain rfl : q3 = [] := List.length_eq_zero.mp hq
  constructor
  · rw [fetch_pages_some, if_neg (by simp [ne1]), if_neg (by simp [h1, PAGE_LIMIT])]
    rw [fetch_pages_some, if_neg (by simp [ne2]), if_neg (by simp [h2, PAGE_LIMIT])]
    rw [fetch_pages_some, if_neg (by simp [ne3]), if_pos (by simp [h3, PAGE_LIMIT])]
    simp [PAGE_LIMIT]
  · rw [fetch_pages_some, if_neg (by simp [ne1]), if_neg (by simp [h1, PAGE_LIMIT])]
    rw [fetch_pages_some, if_neg (by simp [ne2]), if_neg (by simp [h2, PAGE_LIMIT])]
    rw [fetch_pages_some, if_pos (by simp)]
    simp [PAGE_LIMIT]

/-- C4 witness: a concrete response sequence of page sizes [900, 900, 400]
and one of [900, 900, 0]. -/
theorem fetch_pages_termination_witness :
    fetch_pages (some (List.replicate 900 ([] : List Cell)) ::
        some (List.replicate 900 ([] : List Cell)) ::
        some (List.replicate 400 ([] : List Cell)) :: []) 0 [] [] [] =
      (List.replicate 900 ([] : List Cell) ++ List.replicate 900 ([] : List Cell) ++
        List.replicate 400 ([] : List Cell), [0, 900, 1800], [])
    ∧ fetch_pages (some (List.replicate 900 ([] : List Cell)) ::
        some (List.replicate 900 ([] : List Cell)) :: some [] :: []) 0 [] [] [] =
      (List.replicate 900 ([] : List Cell) ++ List.replicate 900 ([] : List Cell),
        [0, 900, 1800], []) :=
  fetch_pages_termination _ _ _ _ _ _ (by rw [List.length_replicate])
    (by rw [List.length_replicate]) (by rw [List.length_replicate]) rfl

theorem fetch_one_page_then_fail (apiCols : List String) (p : List (List Cell))
    (rest : List (Option (List (List Cell)))) (hp : p ≠ [])
    (hfull : ¬p.length < PAGE_LIMIT) :
    fetch_data_from_api apiCols (some p :: none :: rest) =
      (process_dataframe ⟨apiCols, p⟩ .general, [0, PAGE_LIMIT], [.error]) := by
  have ne1 : p.isEmpty = false := by
    cases p
    · exact absurd rfl hp
    · rfl
  unfold fetch_data_from_api
  rw [fetch_pages_some, if_neg (by simp [ne1]), if_neg (by simpa using hfull)]
  rw [fetch_pages_none]
  simp [hp]

/-- C7 counterexample: a network failure during pagination is surfaced with
an error-styled message (`st.error`, src/app.py:86), not a warning — the
claim's "surfaced as a warning" does not hold at this input. -/
theorem fetch_failure_surfaces_error_not_warning :
    (fetch_data_from_api ["hogares"]
        (some (List.replicate 900 [Cell.str "1"]) :: none :: [])).2.2 = [.error]
    ∧ MsgKind.warning ∉
      (fetch_data_from_api ["hogares"]
        (some (List.replicate 900 [Cell.str "1"]) :: none :: [])).2.2 := by
  have hlen : (List.replicate 900 [Cell.str "1"]).length = 900 := by
    rw [List.length_replicate]
  have hp : List.replicate 900 [Cell.str "1"] ≠ [] := by
    intro he
    rw [he] at hlen
    simp at hlen
  have hfull : ¬(List.replicate 900 [Cell.str "1"]).length < PAGE_LIMIT := by
    rw [hlen]
    decide
  have h := fetch_one_page_then_fail ["hogares"] _ [] hp hfull
  constructor
  · rw [h]
  · rw [h]
    decide

/-- C7 (amended): an HTTP/network failure on a page request stops the
pagination; the records accumulated from the previously successful pages
are kept and normalized, and the fetch still returns them (the failure is
not fatal) — but it is surfaced as an error-styled message (`st.error`),
not as a warning. -/
theorem fetch_partial_on_failure (apiCols : List String) (p : List (List Cell))
    (rest : List (Option (List (List Cell)))) (h : p.length = 900) :
    fetch_data_from_api apiCols (some p :: none :: rest) =
      (process_dataframe ⟨apiCols, p⟩ .general, [0, 900], [.error]) := by
  have hp : p ≠ [] := by
    intro he
    rw [he] at h
    simp at h
  have hfull : ¬p.length < PAGE_LIMIT := by
    rw [h]
    decide
  simpa [PAGE_LIMIT] using fetch_one_page_then_fail apiCols p rest hp hfull

/-- C7 witness: one full page of 900 records followed by a failing request. -/
theorem fetch_partial_on_failure_witness :
    fetch_data_from_api ["hogares"]
        (some (List.replicate 900 [Cell.str "1"]) :: none :: []) =
      (process_dataframe ⟨["hogares"], List.replicate 900 [Cell.str "1"]⟩ .general,
        [0, 900], [.error]) :=
  fetch_partial_on_failure _ _ _ (by rw [List.length_replicate])

theorem canonCore_nil : canonCore [] = [] := rfl

theorem canonCore_cons (c : Char) (cs : List Char) :
    canonCore (c :: cs) = canonChar c :: canonCore cs := by
  simp only [canonCore, replaceChar, List.map_cons, List.map_map]
  rfl

theorem canonCore_eq_map (cs : List Char) : canonCore cs = cs.map canonChar := by
  induction cs with
  | nil => rw [canonCore_nil, List.map_nil]
  | cons c cs ih => rw [canonCore_cons, ih, List.map_cons]

set_option maxHeartbeats 1600000 in
theorem lowerChar_val_fix : ∀ p ∈ lowerPairs, lowerChar p.2 = p.2 := by decide

theorem lowerChar_cases (c : Char) :
    lowerChar c = c ∨ ∃ p ∈ lowerPairs, lowerChar c = p.2 := by
  unfold lowerChar
  cases h : lowerPairs.find? (fun p => p.1 == c) with
  | none => left; rfl
  | some pr => right; exact ⟨pr, List.mem_of_find?_eq_some h, rfl⟩

theorem lowerChar_fix (c : Char) : lowerChar (lowerChar c) = lowerChar c := by
  rcases lowerChar_cases c with h | ⟨p, hp, h⟩
  · rw [h]
    exact h
  · rw [h]
    exact lowerChar_val_fix p hp

theorem canonChar_eq_self {c : Char} (hl : lowerChar c = c)
    (h1 : c ≠ ' ') (h2 : c ≠ 'ó') (h3 : c ≠ 'ñ') (h4 : c ≠ 'í')
    (h5 : c ≠ '.') (h6 : c ≠ '-') :
    canonChar c = c := by
  unfold canonChar
  rw [hl]
  unfold rp
  rw [if_neg h1, if_neg h2, if_neg h3, if_neg h4, if_neg h5, if_neg h6]

theorem canonChar_fix (c : Char) : canonChar (canonChar c) = canonChar c := by
  by_cases h1 : lowerChar c = ' '
  · have hc : canonChar c = '_' := by
      unfold canonChar
      rw [h1]
      decide
    rw [hc]
    decide
  by_cases h2 : lowerChar c = 'ó'
  · have hc : canonChar c = 'o' := by
      unfold canonChar
      rw [h2]
      decide
    rw [hc]
    decide
  by_cases h3 : lowerChar c = 'ñ'
  · have hc : canonChar c = 'n' := by
      unfold canonChar
      rw [h3]
      decide
    rw [hc]
    decide
  by_cases h4 : lowerChar c = 'í'
  · have hc : canonChar c = 'i' := by
      unfold canonChar
      rw [h4]
      decide
    rw [hc]
    decide
  by_cases h5 : lowerChar c = '.'
  · have hc : canonChar c = '_' := by
      unfold canonChar
      rw [h5]
      decide
    rw [hc]
    decide
  by_cases h6 : lowerChar c = '-'
  · have hc : canonChar c = '_' := by
      unfold canonChar
      rw [h6]
      decide
    rw [hc]
    decide
  have hc : canonChar c = lowerChar c := by
    unfold canonChar rp
    rw [if_neg h1, if_neg h2, if_neg h3, if_neg h4, if_neg h5, if_neg h6]
  rw [hc]
  exact canonChar_eq_self (lowerChar_fix c) h1 h2 h3 h4 h5 h6

theorem mem_collapseU : ∀ (l : List Char) (b : Bool) (c : Char),
    c ∈ collapseU b l → c ∈ l := by
  intro l
  induction l with
  | nil =>
    intro b c h
    simp [collapseU] at h
  | cons x xs ih =>
    intro b c h
    by_cases hx : x = '_'
    · subst hx
      cases b with
      | true =>
        rw [show collapseU true ('_' :: xs) = collapseU true xs from rfl] at h
        exact List.mem_cons_of_mem _ (ih true c h)
      | false =>
        rw [show collapseU false ('_' :: xs) = '_' :: collapseU true xs from rfl] at h
        rcases List.mem_cons.mp h with h | h
        · exact h ▸ List.mem_cons_self _ _
        · exact List.mem_cons_of_mem _ (ih true c h)
    · have e : collapseU b (x :: xs) = x :: collapseU false xs := by
        simp [collapseU, hx]
      rw [e] at h
      rcases List.mem_cons.mp h with h | h
      · exact h ▸ List.mem_cons_self _ _
      · exact List.mem_cons_of_mem _ (ih false c h)

theorem collapseU_idem : ∀ (l : List Char) (b : Bool),
    collapseU b (collapseU b l) = collapseU b l := by
  intro l
  induction l with
  | nil => intro b; rfl
  | cons x xs ih =>
    intro b
    by_cases hx : x = '_'
    · subst hx
      cases b with
      | true =>
        rw [show collapseU true ('_' :: xs) = collapseU true xs from rfl]
        exact ih true
      | false =>
        rw [show collapseU false ('_' :: xs) = '_' :: collapseU true xs from rfl]
        rw [show collapseU false ('_' :: collapseU true xs) =
          '_' :: collapseU true (collapseU true xs) from rfl]
        rw [ih true]
    · have e : collapseU b (x :: xs) = x :: collapseU false xs := by
        simp [collapseU, hx]
      rw [e]
      have e2 : collapseU b (x :: collapseU false xs) =
          x :: collapseU false (collapseU false xs) := by
        simp [collapseU, hx]
      rw [e2, ih false]

theorem map_fix {α : Type} (f : α → α) :
    ∀ l : List α, (∀ c ∈ l, f c = c) → l.map f = l := by
  intro l
  induction l with
  | nil => intro h; rfl
  | cons x xs ih =>
    intro h
    rw [List.map_cons, h x (List.mem_cons_self _ _),
      ih (fun c hc => h c (List.mem_cons_of_mem _ hc))]

theorem canonName_idem (s : String) : canonName (canonName s) = canonName s := by
  unfold canonName
  have hdata : (String.mk (collapseU false (canonCore s.data))).data =
      collapseU false (canonCore s.data) := rfl
  rw [hdata, canonCore_eq_map, canonCore_eq_map]
  have hmap : (collapseU false (s.data.map canonChar)).map canonChar =
      collapseU false (s.data.map canonChar) := by
    refine map_fix canonChar _ ?_
    intro c hc
    have hin : c ∈ s.data.map canonChar := mem_collapseU _ _ _ hc
    obtain ⟨a, _, rfl⟩ := List.mem_map.mp hin
    exact canonChar_fix a
  rw [hmap, collapseU_idem]

/-- C9: column-name canonicalization is idempotent — re-applying the
canonicalization step to an already-canonicalized dataframe leaves every
column name (and the data) unchanged. -/
theorem normalizeCols_idempotent (df : DataFrame) :
    normalizeCols (normalizeCols df) = normalizeCols df := by
  unfold normalizeCols
  simp only [List.map_map]
  congr 1
  refine List.map_congr_left ?_
  intro s _
  simpa [Function.comp] using canonName_idem s

theorem rowwise_ite {df a b : DataFrame} (P : Prop) [Decidable P]
    (ha : Rowwise df a) (hb : Rowwise df b) : Rowwise df (if P then a else b) := by
  by_cases h : P
  · rwa [if_pos h]
  · rwa [if_neg h]

/-- C10: for every category, normalization preserves the records — the
output has exactly as many rows as the input, and every output row is the
corresponding input row transformed in place (no record is dropped,
reordered, or added; only columns change). -/
theorem process_preserves_rows (cat : Category) (df : DataFrame) :
    (process_dataframe df cat).rows.length = df.rows.length
    ∧ Rowwise df (process_dataframe df cat) := by
  have hrw : Rowwise df (process_dataframe df cat) := by
    cases cat with
    | general =>
      simp only [process_dataframe]
      exact rowwise_trans (rowwise_normalizeCols df)
        (rowwise_trans (rowwise_coerceCol _ _ _)
          (rowwise_trans (rowwise_coerceCol _ _ _) (rowwise_coerceColFrom _ _ _ _)))
    | rural =>
      simp only [process_dataframe]
      exact rowwise_trans (rowwise_normalizeCols df)
        (rowwise_trans (rowwise_coerceCol _ _ _)
          (rowwise_trans (rowwise_coerceCol _ _ _) (rowwise_coerceColFrom _ _ _ _)))
    | military =>
      simp only [process_dataframe]
      exact rowwise_trans (rowwise_normalizeCols df)
        (rowwise_trans (rowwise_coerceCol _ _ _)
          (rowwise_trans (rowwise_coerceCol _ _ _)
            (rowwise_trans (rowwise_coerceCol _ _ _)
              (rowwise_trans (rowwise_foldl _ _ _)
                (rowwise_ite _ (rowwise_setCol _ _ _) (rowwise_setCol _ _ _))))))
    | cmc_mcy =>
      simp only [process_dataframe]
      exact rowwise_trans (rowwise_normalizeCols df)
        (rowwise_trans (rowwise_coerceCol _ _ _)
          (rowwise_trans (rowwise_coerceCol _ _ _)
            (rowwise_trans (rowwise_coerceCol _ _ _)
              (rowwise_trans (rowwise_coerceCol _ _ _) (rowwise_coerceCol _ _ _)))))
    | used_housing =>
      simp only [process_dataframe]
      exact rowwise_trans (rowwise_normalizeCols df)
        (rowwise_trans (rowwise_coerceCol _ _ _)
          (rowwise_trans (rowwise_coerceCol _ _ _)
            (rowwise_trans (rowwise_foldl _ _ _)
              (rowwise_trans (rowwise_ite _ (rowwise_setCol _ _ _) (rowwise_refl _))
                (rowwise_trans (rowwise_ite _ (rowwise_setCol _ _ _) (rowwise_refl _))
                  (rowwise_ite _ (rowwise_setCol _ _ _) (rowwise_refl _)))))))
  refine ⟨?_, hrw⟩
  obtain ⟨g, hg⟩ := hrw
  rw [hg, List.length_map]

set_option maxHeartbeats 1600000 in
/-- C2 (amended): each derived total column is the rowwise sum of the
coerced sub-columns actually present, with Missing contributing zero
(sub-values [3, Missing] give total 3, never Missing).  When every
referenced sub-column is absent, the Military branch still produces
`total_subsidios` with value 0, but the UsedHousing branch produces no
derived column at all — normalization still succeeds without them. -/
theorem derived_totals_spec :
    (∀ a b : Cell,
      (process_dataframe ⟨["nueva_vis", "usada_vis"], [[a, b]]⟩ .military).getCol
          "total_subsidios" =
        some [.num ((coerce_numeric_plain a).q + (coerce_numeric_plain b).q)])
    ∧ (∀ a : Cell,
      (process_dataframe ⟨["ano"], [[a]]⟩ .military).getCol "total_subsidios" =
        some [.num 0])
    ∧ (process_dataframe ⟨["nueva_vis", "usada_vis"], [[.num 3, .missing]]⟩
        .military).getCol "total_subsidios" = some [.num 3]
    ∧ (∀ a b : Cell,
      (process_dataframe ⟨["vis_otros", "no_vis_otros"], [[a, b]]⟩ .used_housing).getCol
          "total_vis" = some [.num ((coerce_numeric_plain a).q)]
      ∧ (process_dataframe ⟨["vis_otros", "no_vis_otros"], [[a, b]]⟩ .used_housing).getCol
          "total_no_vis" = some [.num ((coerce_numeric_plain b).q)]
      ∧ (process_dataframe ⟨["vis_otros", "no_vis_otros"], [[a, b]]⟩ .used_housing).getCol
          "total_subsidios" =
        some [.num ((coerce_numeric_plain a).q + (coerce_numeric_plain b).q)])
    ∧ "total_vis" ∉ (process_dataframe ⟨["ano"], [[.num 2022]]⟩ .used_housing).cols
    ∧ "total_no_vis" ∉ (process_dataframe ⟨["ano"], [[.num 2022]]⟩ .used_housing).cols
    ∧ "total_subsidios" ∉ (process_dataframe ⟨["ano"], [[.num 2022]]⟩ .used_housing).cols
    ∧ (process_dataframe ⟨["ano"], [[.num 2022]]⟩ .used_housing).rows.length = 1 := by
  have hc2a : canonName "nueva_vis" = "nueva_vis" := by decide
  have hc2b : canonName "usada_vis" = "usada_vis" := by decide
  have hc1 : canonName "ano" = "ano" := by decide
  have hc3a : canonName "vis_otros" = "vis_otros" := by decide
  have hc3b : canonName "no_vis_otros" = "no_vis_otros" := by decide
  have hv1 : strStartsWith "vis_policia_nacional" "vis_" = true := by decide
  have hv2 : strStartsWith "vis_ejercito_nacional" "vis_" = true := by decide
  have hv3 : strStartsWith "vis_fuerza_aerea_colombiana" "vis_" = true := by decide
  have hv4 : strStartsWith "vis_armada_nacional" "vis_" = true := by decide
  have hv5 : strStartsWith "vis_otros" "vis_" = true := by decide
  have hv6 : strStartsWith "no_vis_policia_nacional" "vis_" = false := by decide
  have hv7 : strStartsWith "no_vis_ejercito_nacional" "vis_" = false := by decide
  have hv8 : strStartsWith "no_vis_fuerza_aerea_colombiana" "vis_" = false := by decide
  have hv9 : strStartsWith "no_vis_armada_nacional" "vis_" = false := by decide
  have hv10 : strStartsWith "no_vis_otros" "vis_" = false := by decide
  have hn1 : strStartsWith "vis_policia_nacional" "no_vis_" = false := by decide
  have hn2 : strStartsWith "vis_ejercito_nacional" "no_vis_" = false := by decide
  have hn3 : strStartsWith "vis_fuerza_aerea_colombiana" "no_vis_" = false := by decide
  have hn4 : strStartsWith "vis_armada_nacional" "no_vis_" = false := by decide
  have hn5 : strStartsWith "vis_otros" "no_vis_" = false := by decide
  have hn6 : strStartsWith "no_vis_policia_nacional" "no_vis_" = true := by decide
  have hn7 : strStartsWith "no_vis_ejercito_nacional" "no_vis_" = true := by decide
  have hn8 : strStartsWith "no_vis_fuerza_aerea_colombiana" "no_vis_" = true := by decide
  have hn9 : strStartsWith "no_vis_armada_nacional" "no_vis_" = true := by decide
  have hn10 : strStartsWith "no_vis_otros" "no_vis_" = true := by decide
  have h1 : ∀ a b : Cell,
      (process_dataframe ⟨["nueva_vis", "usada_vis"], [[a, b]]⟩ .military).getCol
          "total_subsidios" =
        some [.num ((coerce_numeric_plain a).q + (coerce_numeric_plain b).q)] := by
    intro a b
    simp [process_dataframe, normalizeCols, DataFrame.coerceCol, DataFrame.setCol,
      DataFrame.getCol, DataFrame.hasCol, colIdx, housing_cols, rowSum, cellAt, Cell.q,
      hc2a, hc2b]
  have h4 : ∀ a b : Cell,
      (process_dataframe ⟨["vis_otros", "no_vis_otros"], [[a, b]]⟩ .used_housing).getCol
          "total_vis" = some [.num ((coerce_numeric_plain a).q)]
      ∧ (process_dataframe ⟨["vis_otros", "no_vis_otros"], [[a, b]]⟩ .used_housing).getCol
          "total_no_vis" = some [.num ((coerce_numeric_plain b).q)]
      ∧ (process_dataframe ⟨["vis_otros", "no_vis_otros"], [[a, b]]⟩ .used_housing).getCol
          "total_subsidios" =
        some [.num ((coerce_numeric_plain a).q + (coerce_numeric_plain b).q)] := by
    intro a b
    have e0 : normalizeCols ⟨["vis_otros", "no_vis_otros"], [[a, b]]⟩ =
        ⟨["vis_otros", "no_vis_otros"], [[a, b]]⟩ := by
      simp [normalizeCols, hc3a, hc3b]
    have e_ano : DataFrame.coerceCol ⟨["vis_otros", "no_vis_otros"], [[a, b]]⟩ "ano"
        coerce_numeric_plain = ⟨["vis_otros", "no_vis_otros"], [[a, b]]⟩ := by
      simp [DataFrame.coerceCol, DataFrame.hasCol, colIdx]
    have e_tri : DataFrame.coerceCol ⟨["vis_otros", "no_vis_otros"], [[a, b]]⟩ "trimestre"
        to_numeric_cell = ⟨["vis_otros", "no_vis_otros"], [[a, b]]⟩ := by
      simp [DataFrame.coerceCol, DataFrame.hasCol, colIdx]
    have efold : List.foldl (fun d c => d.coerceCol c coerce_numeric_plain)
        (⟨["vis_otros", "no_vis_otros"], [[a, b]]⟩ : DataFrame) force_cols =
        ⟨["vis_otros", "no_vis_otros"],
          [[coerce_numeric_plain a, coerce_numeric_plain b]]⟩ := by
      simp [force_cols, List.foldl, DataFrame.coerceCol, DataFrame.hasCol,
        DataFrame.setCol, colIdx, cellAt]
    refine ⟨?_, ?_, ?_⟩ <;>
      · simp only [process_dataframe, e0, e_ano, e_tri, efold]
        simp [force_cols, DataFrame.hasCol, DataFrame.setCol, DataFrame.getCol, colIdx,
          rowSum, cellAt, Cell.q, hv1, hv2, hv3, hv4, hv5, hv6, hv7, hv8, hv9, hv10,
          hn1, hn2, hn3, hn4, hn5, hn6, hn7, hn8, hn9, hn10]
  refine ⟨h1, fun a => ?_, ?_, h4, by decide, by decide, by decide, by decide⟩
  · simp [process_dataframe, normalizeCols, DataFrame.coerceCol, DataFrame.setCol,
      DataFrame.getCol, DataFrame.hasCol, colIdx, housing_cols, rowSum, cellAt, Cell.q,
      hc1]
  · rw [h1 (.num 3) .missing,
      (by decide : coerce_numeric_plain (Cell.num 3) = Cell.num 3),
      (by decide : coerce_numeric_plain Cell.missing = Cell.missing)]
    norm_num [Cell.q]

end Subsidio
